import Mathlib

/-!
Formal model of `src/fix-links.py`, a script that rewrites absolute internal
markdown links (`[text](/path)`) into relative ones across a documentation
tree rooted at `website/content`.

Strings are modelled as `List Char`.  A markdown file is identified by the
list of directory parts of its parent directory relative to the content root
(`from_file.parent.relative_to(Path("website/content")).parts` in the
script), so a file directly in the root has `[]` and
`content/sub/dir/page.md` has `["sub", "dir"]`.

The regex `MARKDOWN_LINK_PATTERN = \[([^\]]+)\]\((/[^)]+)\)` is embedded as
the function `matchLink`, which decides whether the pattern matches at the
head of a string: both character classes are greedy runs up to the first
excluded character, which makes the match deterministic (backtracking into
`[^X]+` can never help, because every character of the run fails to match
the following literal).  `re.sub` is embedded as the left-to-right scan
`subLinksFuel`: at each position it either consumes a whole match and emits
the replacement, or copies one character and moves on.  The fuel argument
only bounds the length of the scan; `subLinks` supplies `s.length`, which is
always sufficient because every step consumes at least one character.
-/

namespace FixLinks

/-- Split `s` into its maximal leading run of characters different from
`stop`, together with the remainder.  Models the greedy `[^X]+` character
classes of `MARKDOWN_LINK_PATTERN` (src/fix-links.py line 13). -/
def takeRun (stop : Char) : List Char → List Char × List Char
  | [] => ([], [])
  | c :: rest =>
    if c = stop then ([], c :: rest)
    else
      let q := takeRun stop rest
      (c :: q.1, q.2)

/-- Match `MARKDOWN_LINK_PATTERN = \[([^\]]+)\]\((/[^)]+)\)` at the head of a
string (src/fix-links.py line 13; `re.IGNORECASE` is irrelevant as the
pattern has no letters).  On success returns the two capture groups — link
text and URL (with its leading `/`) — and the remainder of the string after
the closing parenthesis. -/
def matchLink : List Char → Option (List Char × List Char × List Char)
  | [] => none
  | c :: rest =>
    if c = '[' then
      if (takeRun ']' rest).1 = [] then none
      else
        match (takeRun ']' rest).2 with
        | ']' :: '(' :: '/' :: r2 =>
          if (takeRun ')' r2).1 = [] then none
          else
            match (takeRun ')' r2).2 with
            | ')' :: rest2 =>
              some ((takeRun ']' rest).1, '/' :: (takeRun ')' r2).1, rest2)
            | _ => none
        | _ => none
    else none

/-- Case-insensitive prefix test: does `s` start with the (lowercase)
pattern `pat`?  Models anchored regex matching under `re.IGNORECASE`. -/
def leadsWithCI : List Char → List Char → Bool
  | [], _ => true
  | _ :: _, [] => false
  | p :: ps, c :: cs => (c.toLower == p) && leadsWithCI ps cs

/-- The characters of `http://`. -/
def httpPat : List Char := ['h', 't', 't', 'p', ':', '/', '/']

/-- The characters of `https://`. -/
def httpsPat : List Char := ['h', 't', 't', 'p', 's', ':', '/', '/']

/-- The characters of `mailto:`. -/
def mailtoPat : List Char := ['m', 'a', 'i', 'l', 't', 'o', ':']

/-- The characters of `#`. -/
def anchorPat : List Char := ['#']

/-- `EXTERNAL_LINK_PATTERN.match(link_url)`: does the URL start with
`http://`, `https://`, `mailto:` or `#` (case-insensitively)?
(src/fix-links.py line 16: `^(https?://|mailto:|#)` with `re.IGNORECASE`.) -/
def isExternalLink (u : List Char) : Bool :=
  leadsWithCI httpPat u || leadsWithCI httpsPat u ||
    leadsWithCI mailtoPat u || leadsWithCI anchorPat u

/-- `link_url.startswith('/')` (src/fix-links.py line 57). -/
def startsWithSlash : List Char → Bool
  | '/' :: _ => true
  | _ => false

/-- `to_path.lstrip('/')`: remove every leading `/` character
(src/fix-links.py line 21). -/
def lstrip_slash : List Char → List Char
  | [] => []
  | c :: rest => if c = '/' then lstrip_slash rest else c :: rest

/-- `"../" * levels_up` (src/fix-links.py line 35). -/
def up_path : Nat → List Char
  | 0 => []
  | n + 1 => '.' :: '.' :: '/' :: up_path n

/-- `calculate_relative_path` (src/fix-links.py lines 18-36).  The source
file is represented by `from_dir_parts`, the parts of its directory relative
to the content root, so `levels_up = len(from_dir.parts)` is its length. -/
def calculate_relative_path (from_dir_parts : List String) (to_path : List Char) :
    List Char :=
  let stripped := lstrip_slash to_path
  let levels_up := from_dir_parts.length
  if levels_up = 0 then stripped
  else up_path levels_up ++ stripped

/-- Re-render a matched link `[t](u)` exactly as it occurred in the input
(`match.group(0)`). -/
def render_link (t u : List Char) : List Char :=
  '[' :: (t ++ ']' :: '(' :: (u ++ [')']))

/-- The `replace_link` callback (src/fix-links.py lines 47-65): external
links and links not starting with `/` are returned unchanged with no count;
absolute internal links are rewritten via `calculate_relative_path` and
counted.  Returns the replacement text and the number of links fixed. -/
def replace_link (p : List String) (t u : List Char) : List Char × Nat :=
  if isExternalLink u then (render_link t u, 0)
  else if !startsWithSlash u then (render_link t u, 0)
  else (render_link t (calculate_relative_path p u), 1)

/-- `MARKDOWN_LINK_PATTERN.sub(replace_link, content)` as a left-to-right
scan (src/fix-links.py line 67), with a fuel bound on the number of steps.
Returns the rewritten text and the total number of links fixed. -/
def subLinksFuel (p : List String) : Nat → List Char → List Char × Nat
  | 0, s => (s, 0)
  | _ + 1, [] => ([], 0)
  | fuel + 1, c :: rest =>
    match matchLink (c :: rest) with
    | some (t, u, r) =>
      let rep := replace_link p t u
      let q := subLinksFuel p fuel r
      (rep.1 ++ q.1, rep.2 + q.2)
    | none =>
      let q := subLinksFuel p fuel rest
      (c :: q.1, q.2)

/-- The rewrite of one file's content: `content.length` fuel always covers
the whole scan. -/
def subLinks (p : List String) (s : List Char) : List Char × Nat :=
  subLinksFuel p s.length s

/-- A segment of the scan: either a single character the pattern did not
match, or a matched link `[txt](url)`. -/
inductive Chunk where
  | raw : Char → Chunk
  | link : List Char → List Char → Chunk
deriving DecidableEq

/-- Render a chunk back to the exact characters it was scanned from. -/
def renderChunk : Chunk → List Char
  | .raw c => [c]
  | .link t u => render_link t u

/-- The same scan as `subLinksFuel`, but recording the segments instead of
substituting: an analysis view of `MARKDOWN_LINK_PATTERN.sub`. -/
def chunksFuel : Nat → List Char → List Chunk
  | 0, _ => []
  | _ + 1, [] => []
  | fuel + 1, c :: rest =>
    match matchLink (c :: rest) with
    | some (t, u, r) => Chunk.link t u :: chunksFuel fuel r
    | none => Chunk.raw c :: chunksFuel fuel rest

/-- The segments of one file's content. -/
def chunks (s : List Char) : List Chunk := chunksFuel s.length s

/-- The effect of `replace_link` on one segment: raw characters and matched
links that are external or do not start with `/` are unchanged; absolute
internal links get their URL replaced by `calculate_relative_path`. -/
def rewriteChunk (p : List String) : Chunk → Chunk
  | .raw c => .raw c
  | .link t u =>
    if isExternalLink u then .link t u
    else if !startsWithSlash u then .link t u
    else .link t (calculate_relative_path p u)

/-- How much one segment adds to the `fixed_links` counter. -/
def chunkFixCount : Chunk → Nat
  | .raw _ => 0
  | .link _ u =>
    if isExternalLink u then 0
    else if !startsWithSlash u then 0
    else 1

/-- Does `MARKDOWN_LINK_PATTERN` match at some position of `s`? -/
def hasMatch : List Char → Bool
  | [] => false
  | c :: rest => (matchLink (c :: rest)).isSome || hasMatch rest

/-- Does `s` start with `pat`? -/
def leadsWith : List Char → List Char → Bool
  | [], _ => true
  | _ :: _, [] => false
  | p :: ps, c :: cs => (p == c) && leadsWith ps cs

/-- Does `pat` occur as a contiguous substring of `s`? -/
def containsSub (pat : List Char) : List Char → Bool
  | [] => pat.isEmpty
  | c :: rest => leadsWith pat (c :: rest) || containsSub pat rest

/-- A markdown file as seen by the script: its path (for diagnostics), its
directory parts relative to the content root, and the outcome of reading
it — `.error e` models any exception raised while processing the file
(src/fix-links.py lines 40-42 and 76-78). -/
structure FileEntry where
  path : String
  dirParts : List String
  content : Except String (List Char)

/-- The pure core of `fix_links_in_file` (src/fix-links.py lines 44-74)
after a successful read: returns the content on disk afterwards, whether the
file was written (it is written exactly when `fixed_links > 0`, line 69),
and the number of links fixed. -/
def fix_links_in_file (p : List String) (content : List Char) :
    List Char × Bool × Nat :=
  let q := subLinks p content
  if q.2 > 0 then (q.1, true, q.2) else (content, false, q.2)

/-- `fix_links_in_file` with its surrounding `try/except` (src/fix-links.py
lines 40-78): a failing file keeps its error state, contributes a count of
zero, and emits the diagnostic `Error processing {file_path}: {e}` (line 77).
Returns the resulting disk state, the count, and the emitted diagnostics. -/
def fix_links_in_file_io (f : FileEntry) :
    Except String (List Char) × Nat × List String :=
  match f.content with
  | .error e => (.error e, 0, ["Error processing " ++ f.path ++ ": " ++ e])
  | .ok c =>
    let q := fix_links_in_file f.dirParts c
    (.ok q.1, q.2.2, [])

/-- The observable outcome of one run of the script. -/
structure RunResult where
  exitCode : Nat
  filesProcessed : Nat
  totalFixed : Nat
  diskResults : List (Except String (List Char))
  errorLog : List String

/-- `main` (src/fix-links.py lines 80-101): if the content root does not
exist, report and exit with status 1 before touching any file; otherwise
process every discovered markdown file in order, accumulating the totals,
and finish with exit status 0. -/
def main (contentDirExists : Bool) (files : List FileEntry) : RunResult :=
  if contentDirExists = false then
    ⟨1, 0, 0, [], []⟩
  else
    ⟨0, files.length,
      (files.map fun f => (fix_links_in_file_io f).2.1).sum,
      files.map fun f => (fix_links_in_file_io f).1,
      (files.map fun f => (fix_links_in_file_io f).2.2).flatten⟩

/-! ### Basic lemmas about the matcher -/

lemma takeRun_append (stop : Char) : ∀ s : List Char,
    (takeRun stop s).1 ++ (takeRun stop s).2 = s
  | [] => rfl
  | c :: rest => by
    unfold takeRun
    by_cases h : c = stop
    · simp [h]
    · simpa [h] using takeRun_append stop rest

/-- Structure of a successful match: the input splits exactly as
`[txt](url)` followed by the remainder, the text is nonempty, and the URL is
`/` followed by a nonempty run. -/
lemma matchLink_sound {s t u r : List Char} (h : matchLink s = some (t, u, r)) :
    s = '[' :: (t ++ ']' :: '(' :: (u ++ ')' :: r)) ∧ t ≠ [] ∧
      ∃ run, u = '/' :: run ∧ run ≠ [] := by
  cases s with
  | nil => exact absurd h (by simp [matchLink])
  | cons c rest =>
    rw [matchLink] at h
    by_cases hc : c = '['
    · rw [if_pos hc] at h
      subst hc
      have h1 := takeRun_append ']' rest
      by_cases htxt : (takeRun ']' rest).1 = []
      · rw [if_pos htxt] at h
        exact absurd h (by simp)
      · rw [if_neg htxt] at h
        split at h
        · rename_i r2 hshape
          have h2 := takeRun_append ')' r2
          by_cases hrun : (takeRun ')' r2).1 = []
          · rw [if_pos hrun] at h
            exact absurd h (by simp)
          · rw [if_neg hrun] at h
            split at h
            · rename_i rest2 hshape2
              simp only [Option.some.injEq, Prod.mk.injEq] at h
              obtain ⟨ht, hu, hrr⟩ := h
              have key : rest = t ++ (']' :: '(' :: (u ++ ')' :: r)) := by
                calc rest = (takeRun ']' rest).1 ++ (takeRun ']' rest).2 :=
                      h1.symm
                  _ = t ++ (']' :: '(' :: '/' :: r2) := by rw [ht, hshape]
                  _ = t ++ (']' :: '(' ::
                        ('/' :: ((takeRun ')' r2).1 ++ (takeRun ')' r2).2))) := by
                      rw [h2]
                  _ = t ++ (']' :: '(' :: (u ++ ')' :: r)) := by
                      rw [hshape2, hrr, ← hu]
                      simp
              exact ⟨by rw [key], by rw [← ht]; exact htxt,
                (takeRun ')' r2).1, hu.symm, hrun⟩
            · exact absurd h (by simp)
        · exact absurd h (by simp)
    · rw [if_neg hc] at h
      exact absurd h (by simp)

/-- A match consumes at least one character, so the remainder is shorter. -/
lemma matchLink_shorter {s t u r : List Char} (h : matchLink s = some (t, u, r)) :
    r.length < s.length := by
  obtain ⟨hs, -, -⟩ := matchLink_sound h
  subst hs
  simp
  omega

/-! ### The scan seen as a segmentation of the input -/

/-- Rendering the segments of a scan back gives exactly the input. -/
lemma chunksFuel_render : ∀ (fuel : Nat) (s : List Char), s.length ≤ fuel →
    ((chunksFuel fuel s).map renderChunk).flatten = s
  | 0, s, hle => by
    have hs : s = [] := List.length_eq_zero.mp (Nat.le_zero.mp hle)
    subst hs
    rfl
  | _ + 1, [], _ => rfl
  | fuel + 1, c :: rest, hle => by
    rw [chunksFuel]
    cases hm : matchLink (c :: rest) with
    | some tur =>
      obtain ⟨t, u, r⟩ := tur
      obtain ⟨hs, -, -⟩ := matchLink_sound hm
      have hlen : r.length ≤ fuel := by
        have h1 := matchLink_shorter hm
        simp only [List.length_cons] at h1 hle
        omega
      simp only [List.map_cons, List.flatten_cons,
        chunksFuel_render fuel r hlen, renderChunk]
      rw [hs, render_link]
      simp
    | none =>
      have hlen : rest.length ≤ fuel := by
        simp only [List.length_cons] at hle
        omega
      simp only [List.map_cons, List.flatten_cons,
        chunksFuel_render fuel rest hlen, renderChunk]
      rfl

/-- Rendering the segments of a file's content gives back the content. -/
lemma chunks_render (s : List Char) :
    ((chunks s).map renderChunk).flatten = s :=
  chunksFuel_render s.length s le_rfl

/-- The `replace_link` callback acts on a matched link exactly as
`rewriteChunk` plus `chunkFixCount` describe. -/
lemma replace_link_eq (p : List String) (t u : List Char) :
    replace_link p t u =
      (renderChunk (rewriteChunk p (Chunk.link t u)),
        chunkFixCount (Chunk.link t u)) := by
  rw [replace_link, rewriteChunk, chunkFixCount]
  cases hext : isExternalLink u <;> cases hsl : startsWithSlash u <;>
    simp [hext, hsl, renderChunk]

/-- The substitution scan is the segment scan with every segment rewritten
in place, and the fix count is the sum over segments. -/
lemma subLinksFuel_chunks (p : List String) :
    ∀ (fuel : Nat) (s : List Char), s.length ≤ fuel →
    subLinksFuel p fuel s =
      (((chunksFuel fuel s).map fun ch => renderChunk (rewriteChunk p ch)).flatten,
        ((chunksFuel fuel s).map chunkFixCount).sum)
  | 0, s, hle => by
    have hs : s = [] := List.length_eq_zero.mp (Nat.le_zero.mp hle)
    subst hs
    rfl
  | _ + 1, [], _ => rfl
  | fuel + 1, c :: rest, hle => by
    rw [subLinksFuel, chunksFuel]
    cases hm : matchLink (c :: rest) with
    | some tur =>
      obtain ⟨t, u, r⟩ := tur
      have hlen : r.length ≤ fuel := by
        have h1 := matchLink_shorter hm
        simp only [List.length_cons] at h1 hle
        omega
      simp only [List.map_cons, List.flatten_cons, List.sum_cons,
        subLinksFuel_chunks p fuel r hlen, replace_link_eq]
    | none =>
      have hlen : rest.length ≤ fuel := by
        simp only [List.length_cons] at hle
        omega
      simp only [List.map_cons, List.flatten_cons, List.sum_cons,
        subLinksFuel_chunks p fuel rest hlen, renderChunk, rewriteChunk,
        chunkFixCount]
      simp

/-- `subLinks` rewrites each segment of the input in place and counts the
rewritten segments. -/
lemma subLinks_chunks (p : List String) (s : List Char) :
    subLinks p s =
      (((chunks s).map fun ch => renderChunk (rewriteChunk p ch)).flatten,
        ((chunks s).map chunkFixCount).sum) :=
  subLinksFuel_chunks p s.length s le_rfl

/-- Every link segment of a scan has a URL of the form `/` plus a nonempty
run: the pattern only ever matches URLs starting with `/`. -/
lemma chunksFuel_link_mem : ∀ (fuel : Nat) (s t u : List Char),
    Chunk.link t u ∈ chunksFuel fuel s → ∃ run, u = '/' :: run ∧ run ≠ []
  | 0, _, _, _, h => absurd h (by simp [chunksFuel])
  | _ + 1, [], _, _, h => absurd h (by simp [chunksFuel])
  | fuel + 1, c :: rest, t, u, h => by
    rw [chunksFuel] at h
    cases hm : matchLink (c :: rest) with
    | some tur =>
      obtain ⟨t2, u2, r⟩ := tur
      rw [hm] at h
      rcases List.mem_cons.mp h with heq | hmem
      · obtain ⟨-, -, run, hu, hrun⟩ := matchLink_sound hm
        cases heq
        exact ⟨run, hu, hrun⟩
      · exact chunksFuel_link_mem fuel r t u hmem
    | none =>
      rw [hm] at h
      rcases List.mem_cons.mp h with heq | hmem
      · exact absurd heq (by simp)
      · exact chunksFuel_link_mem fuel rest t u hmem

/-- A URL starting with `/` never matches `EXTERNAL_LINK_PATTERN`. -/
lemma isExternalLink_slash (run : List Char) :
    isExternalLink ('/' :: run) = false := by
  rw [isExternalLink, httpPat, httpsPat, mailtoPat, anchorPat,
    leadsWithCI, leadsWithCI, leadsWithCI, leadsWithCI]
  rw [show Char.toLower '/' = '/' from rfl]
  rw [show (('/' : Char) == 'h') = false from rfl,
    show (('/' : Char) == 'm') = false from rfl,
    show (('/' : Char) == '#') = false from rfl]
  simp

/-- Every link segment of a file's content is an absolute-internal
candidate: its URL starts with `/` and is not external. -/
lemma chunks_link_mem {s t u : List Char} (h : Chunk.link t u ∈ chunks s) :
    startsWithSlash u = true ∧ isExternalLink u = false := by
  obtain ⟨run, hu, -⟩ := chunksFuel_link_mem s.length s t u h
  subst hu
  exact ⟨rfl, isExternalLink_slash run⟩

/-- A segment that adds nothing to the fix counter is left unchanged. -/
lemma rewriteChunk_of_count_zero {p : List String} {ch : Chunk}
    (h : chunkFixCount ch = 0) : rewriteChunk p ch = ch := by
  cases ch with
  | raw c => rfl
  | link t u =>
    rw [chunkFixCount] at h
    rw [rewriteChunk]
    cases hext : isExternalLink u <;> cases hsl : startsWithSlash u <;>
      simp [hext, hsl] at h ⊢

/-- A scan that fixes no link leaves the text unchanged. -/
lemma subLinks_count_zero {p : List String} {s : List Char}
    (h : (subLinks p s).2 = 0) : (subLinks p s).1 = s := by
  rw [subLinks_chunks] at h ⊢
  have hall : ∀ ch ∈ chunks s, chunkFixCount ch = 0 := by
    intro ch hch
    exact List.sum_eq_zero_iff.mp h _ (List.mem_map_of_mem _ hch)
  calc ((chunks s).map fun ch => renderChunk (rewriteChunk p ch)).flatten
      = ((chunks s).map renderChunk).flatten := by
        refine congrArg _ (List.map_congr_left ?_)
        intro ch hch
        rw [rewriteChunk_of_count_zero (hall ch hch)]
    _ = s := chunks_render s

/-! ### Absence of matches -/

/-- If no position of `s` matches the pattern, the scan copies `s`
verbatim and fixes nothing. -/
lemma subLinksFuel_noMatch (p : List String) : ∀ (fuel : Nat) (s : List Char),
    hasMatch s = false → s.length ≤ fuel → subLinksFuel p fuel s = (s, 0)
  | 0, s, _, hle => by
    have hs : s = [] := List.length_eq_zero.mp (Nat.le_zero.mp hle)
    subst hs
    rfl
  | _ + 1, [], _, _ => rfl
  | fuel + 1, c :: rest, hnm, hle => by
    rw [hasMatch] at hnm
    simp only [Bool.or_eq_false_iff] at hnm
    have hlen : rest.length ≤ fuel := by
      simp only [List.length_cons] at hle
      omega
    rw [subLinksFuel]
    cases hm : matchLink (c :: rest) with
    | some tur =>
      rw [hm] at hnm
      simp at hnm
    | none =>
      simp only [subLinksFuel_noMatch p fuel rest hnm.2 hlen]

/-- A string starting with `pat` passes the `leadsWith` test. -/
lemma leadsWith_self_append : ∀ (pat b : List Char),
    leadsWith pat (pat ++ b) = true
  | [], _ => rfl
  | p :: ps, b => by
    rw [List.cons_append, leadsWith, leadsWith_self_append ps b]
    simp

/-- A string with `pat` in the middle contains `pat` as a substring. -/
lemma containsSub_of_append (pat : List Char) : ∀ (a b : List Char),
    containsSub pat (a ++ (pat ++ b)) = true
  | [], b => by
    rw [List.nil_append]
    cases hpb : pat ++ b with
    | nil =>
      have hp : pat = [] := by
        cases pat with
        | nil => rfl
        | cons x xs => simp at hpb
      rw [containsSub, hp]
      rfl
    | cons c cs =>
      rw [containsSub, ← hpb, leadsWith_self_append]
      simp
  | x :: a, b => by
    rw [List.cons_append, containsSub, containsSub_of_append pat a b]
    simp

/-- Wherever the pattern matches, the characters `](/` occur contiguously:
a match has the shape `[txt](/run)`. -/
lemma hasMatch_containsSub : ∀ s : List Char, hasMatch s = true →
    containsSub [']', '(', '/'] s = true
  | [], h => absurd h (by rw [hasMatch]; simp)
  | c :: rest, h => by
    rw [hasMatch] at h
    rcases Bool.or_eq_true_iff.mp h with h1 | h2
    · rw [Option.isSome_iff_exists] at h1
      obtain ⟨⟨t, u, r⟩, hm⟩ := h1
      obtain ⟨hs, -, run, hu, -⟩ := matchLink_sound hm
      rw [hu] at hs
      have hshape : c :: rest = ('[' :: t) ++ ([']', '(', '/'] ++ (run ++ ')' :: r)) := by
        rw [hs]
        simp
      rw [hshape]
      exact containsSub_of_append _ _ _
    · rw [containsSub, hasMatch_containsSub rest h2]
      simp

/-! ### Lemmas about the relative-path calculation -/

/-- `calculate_relative_path` always produces the up-prefix for the file's
depth followed by the stripped target (for depth `0` the up-prefix is
empty, which is the `if` branch taken by the code). -/
lemma calculate_relative_path_eq (p : List String) (t : List Char) :
    calculate_relative_path p t = up_path p.length ++ lstrip_slash t := by
  rw [calculate_relative_path]
  by_cases h : p.length = 0
  · simp [h, up_path]
  · simp [h]

/-- Stripping removes exactly the maximal run of leading slashes. -/
lemma lstrip_slash_replicate : ∀ (k : Nat) (t : List Char),
    t.head? ≠ some '/' → lstrip_slash (List.replicate k '/' ++ t) = t
  | 0, t, h => by
    rw [List.replicate_zero, List.nil_append]
    cases t with
    | nil => rfl
    | cons c cs =>
      rw [lstrip_slash, if_neg (by simpa using h)]
  | k + 1, t, h => by
    rw [List.replicate_succ, List.cons_append, lstrip_slash, if_pos rfl,
      lstrip_slash_replicate k t h]

/-- The stripped target never begins with a slash. -/
lemma lstrip_slash_head : ∀ t : List Char, (lstrip_slash t).head? ≠ some '/'
  | [] => by
    rw [lstrip_slash]
    simp
  | c :: cs => by
    rw [lstrip_slash]
    by_cases h : c = '/'
    · rw [if_pos h]
      exact lstrip_slash_head cs
    · rw [if_neg h]
      simpa using h

/-- The up-prefix is `depth` repetitions of `../`. -/
lemma up_path_eq : ∀ n : Nat,
    up_path n = (List.replicate n "../".data).flatten
  | 0 => rfl
  | n + 1 => by
    rw [up_path, List.replicate_succ, List.flatten_cons, up_path_eq n]
    rfl

/-! ### Raw segments pass through verbatim -/

/-- Rewriting a list of raw segments renders back exactly the original
characters. -/
lemma flatten_map_raw (p : List String) : ∀ l : List Char,
    ((l.map Chunk.raw).map fun ch => renderChunk (rewriteChunk p ch)).flatten = l
  | [] => rfl
  | c :: rest => by
    rw [List.map_cons, List.map_cons, List.flatten_cons, flatten_map_raw p rest]
    rfl

/-- Raw segments contribute nothing to the fix counter. -/
lemma sum_map_raw : ∀ l : List Char,
    ((l.map Chunk.raw).map chunkFixCount).sum = 0
  | [] => rfl
  | c :: rest => by
    rw [List.map_cons, List.map_cons, List.sum_cons, sum_map_raw rest]
    rfl

/-! ### The claims -/

/-- C1: for a file whose directory is at depth `d` below the content root
and a target `/rest` whose remainder does not itself begin with `/`, the
rewritten URL is `d` repetitions of `../` followed by the target stripped
of its leading slash (for `d = 0` this is the stripped target unchanged). -/
theorem C1_depth_rewrite (parts : List String) (rest : List Char)
    (h : rest.head? ≠ some '/') :
    calculate_relative_path parts ('/' :: rest) =
      (List.replicate parts.length "../".data).flatten ++ rest := by
  rw [calculate_relative_path_eq, ← up_path_eq]
  congr 1
  have h1 := lstrip_slash_replicate 1 rest h
  simpa using h1

/-- Witness for C1 at the spec's depth-2 example: a file at
`content/sub/dir/page.md` with link target `/a/b` is rewritten to
`../../a/b`. -/
theorem C1_depth_rewrite_witness :
    ("a/b".data.head? ≠ some '/') ∧
    calculate_relative_path ["sub", "dir"] ('/' :: "a/b".data) =
      (List.replicate (["sub", "dir"] : List String).length "../".data).flatten ++
        "a/b".data :=
  ⟨by decide, C1_depth_rewrite ["sub", "dir"] "a/b".data (by decide)⟩

/-- C2: the rewrite changes only absolute-internal links.  The scan splits
the input into segments (`chunks`) that render back to the input
verbatim; the output is exactly the per-segment rewrite; raw characters
(which is where every external, anchor or already-relative link lives,
since the pattern only matches URLs beginning with `/`) are unchanged; and
every matched link segment has a URL that begins with `/` and matches none
of `http://`, `https://`, `mailto:`, `#`.  Hence every link whose URL is
external or does not start with `/` appears in the output byte-identical
to the input. -/
theorem C2_only_absolute_internal_rewritten (p : List String) (s : List Char) :
    ((chunks s).map renderChunk).flatten = s ∧
    subLinks p s =
      (((chunks s).map fun ch => renderChunk (rewriteChunk p ch)).flatten,
        ((chunks s).map chunkFixCount).sum) ∧
    (∀ c, rewriteChunk p (Chunk.raw c) = Chunk.raw c) ∧
    (∀ t u, Chunk.link t u ∈ chunks s →
      startsWithSlash u = true ∧ isExternalLink u = false) :=
  ⟨chunks_render s, subLinks_chunks p s, fun _ => rfl,
    fun _ _ h => chunks_link_mem h⟩

/-- Counterexample to C3 as stated: the rewrite is not idempotent on every
input.  On `[t](/u_[b](/x)` the first pass matches the whole string (the
URL group greedily takes `/u_[b](/x`) and its rewrite exposes the embedded
`[b](/x)`, which the second pass then rewrites: the second application
performs one further replacement and changes the text. -/
theorem C3_counterexample :
    (subLinks [] ((subLinks [] "[t](/u_[b](/x)".data).1)).2 = 1 ∧
    (subLinks [] ((subLinks [] "[t](/u_[b](/x)".data).1)).1 ≠
      (subLinks [] "[t](/u_[b](/x)".data).1 := by
  decide

/-- C3 (amended): the per-file rewrite is idempotent on every input whose
first-pass output contains no occurrence of the three characters `](/` —
in particular no URL produced by a rewrite begins with `/`, but a rewrite
may expose a link-shaped substring that was embedded inside a matched URL,
so unconditional idempotence fails. -/
theorem C3_idempotent_no_reopened_link (p : List String) (s : List Char)
    (h : containsSub [']', '(', '/'] (subLinks p s).1 = false) :
    subLinks p ((subLinks p s).1) = ((subLinks p s).1, 0) := by
  have hnm : hasMatch (subLinks p s).1 = false := by
    cases hh : hasMatch (subLinks p s).1
    · rfl
    · exact absurd (hasMatch_containsSub _ hh) (by rw [h]; simp)
  exact subLinksFuel_noMatch p _ _ hnm le_rfl

/-- Witness for the amended C3 on a typical file. -/
theorem C3_idempotent_no_reopened_link_witness :
    containsSub [']', '(', '/'] (subLinks ["sub"] "[x](/a) text".data).1 = false ∧
    subLinks ["sub"] ((subLinks ["sub"] "[x](/a) text".data).1) =
      ((subLinks ["sub"] "[x](/a) text".data).1, 0) :=
  ⟨by decide,
    C3_idempotent_no_reopened_link ["sub"] "[x](/a) text".data (by decide)⟩

/-- C4: the file is written back exactly when at least one link was fixed,
and on a zero-replacement run both the disk content and the scan output
are byte-identical to the input. -/
theorem C4_write_iff_fixed (p : List String) (c : List Char) :
    ((fix_links_in_file p c).2.1 = true ↔ 0 < (subLinks p c).2) ∧
    ((subLinks p c).2 = 0 →
      (fix_links_in_file p c).1 = c ∧ (subLinks p c).1 = c) := by
  constructor
  · rcases Nat.eq_zero_or_pos (subLinks p c).2 with h | h
    · rw [fix_links_in_file]
      simp [h]
    · rw [fix_links_in_file]
      simp [h]
  · intro h0
    refine ⟨?_, subLinks_count_zero h0⟩
    rw [fix_links_in_file]
    simp [h0]

/-- Witness for C4 on a file with no absolute-internal link. -/
theorem C4_write_iff_fixed_witness :
    (subLinks ([] : List String) "plain text".data).2 = 0 ∧
    (fix_links_in_file [] "plain text".data).1 = "plain text".data ∧
    (subLinks ([] : List String) "plain text".data).1 = "plain text".data :=
  ⟨by decide, ((C4_write_iff_fixed [] "plain text".data).2 (by decide)).1,
    ((C4_write_iff_fixed [] "plain text".data).2 (by decide)).2⟩

/-- C5: a file whose processing raises an error is handled inside that
file's processing: the run still exits with status `0`, the failing file
contributes `0` fixed links, the emitted diagnostic names the file and the
cause, and every file of the traversal is still processed and summed. -/
theorem C5_per_file_error_recovered (files : List FileEntry) (f : FileEntry)
    (e : String) (_hmem : f ∈ files) (herr : f.content = Except.error e) :
    (main true files).exitCode = 0 ∧
    (fix_links_in_file_io f).2.1 = 0 ∧
    (fix_links_in_file_io f).2.2 =
      ["Error processing " ++ f.path ++ ": " ++ e] ∧
    (main true files).filesProcessed = files.length ∧
    (main true files).totalFixed =
      (files.map fun g => (fix_links_in_file_io g).2.1).sum := by
  refine ⟨rfl, ?_, ?_, rfl, rfl⟩
  · simp only [fix_links_in_file_io, herr]
  · simp only [fix_links_in_file_io, herr]

/-- Witness for C5: a one-file run where reading the file fails. -/
theorem C5_per_file_error_recovered_witness :
    (main true [⟨"docs/a.md", ["docs"],
        Except.error "Permission denied"⟩]).exitCode = 0 ∧
    (fix_links_in_file_io ⟨"docs/a.md", ["docs"],
        Except.error "Permission denied"⟩).2.1 = 0 ∧
    (fix_links_in_file_io ⟨"docs/a.md", ["docs"],
        Except.error "Permission denied"⟩).2.2 =
      ["Error processing " ++ "docs/a.md" ++ ": " ++ "Permission denied"] ∧
    (main true [⟨"docs/a.md", ["docs"],
        Except.error "Permission denied"⟩]).filesProcessed =
      [(⟨"docs/a.md", ["docs"],
        Except.error "Permission denied"⟩ : FileEntry)].length ∧
    (main true [⟨"docs/a.md", ["docs"],
        Except.error "Permission denied"⟩]).totalFixed =
      ([(⟨"docs/a.md", ["docs"], Except.error "Permission denied"⟩ :
        FileEntry)].map fun g => (fix_links_in_file_io g).2.1).sum :=
  C5_per_file_error_recovered
    [⟨"docs/a.md", ["docs"], Except.error "Permission denied"⟩]
    ⟨"docs/a.md", ["docs"], Except.error "Permission denied"⟩
    "Permission denied" (List.mem_cons_self _ _) rfl

/-- C6: when the content root does not exist, the run exits with status
`1` having processed no file, fixed no link, touched no disk state and
emitted no per-file diagnostic. -/
theorem C6_missing_root (files : List FileEntry) :
    main false files = ⟨1, 0, 0, [], []⟩ :=
  rfl

/-- C7: on a line with the four links `[a](/x)`, `[b](http://ext.com)`,
`[c](./y)`, `[d](#anchor)`, the rewrite changes only the first link —
replacing its URL by the computed relative path — leaves the other three
byte-identical, and reports exactly one fixed link. -/
theorem C7_mixed_links (p : List String) :
    subLinks p "[a](/x) [b](http://ext.com) [c](./y) [d](#anchor)".data =
      ("[a](".data ++ calculate_relative_path p "/x".data ++
        ") [b](http://ext.com) [c](./y) [d](#anchor)".data, 1) := by
  have hch : chunks "[a](/x) [b](http://ext.com) [c](./y) [d](#anchor)".data =
      Chunk.link ['a'] ['/', 'x'] ::
        " [b](http://ext.com) [c](./y) [d](#anchor)".data.map Chunk.raw := by
    decide
  have hf : ((Chunk.link ['a'] ['/', 'x'] ::
      " [b](http://ext.com) [c](./y) [d](#anchor)".data.map Chunk.raw).map
        fun ch => renderChunk (rewriteChunk p ch)).flatten =
      renderChunk (rewriteChunk p (Chunk.link ['a'] ['/', 'x'])) ++
        " [b](http://ext.com) [c](./y) [d](#anchor)".data := by
    rw [List.map_cons, List.flatten_cons, flatten_map_raw]
  have hc2 : ((Chunk.link ['a'] ['/', 'x'] ::
      " [b](http://ext.com) [c](./y) [d](#anchor)".data.map Chunk.raw).map
        chunkFixCount).sum =
      chunkFixCount (Chunk.link ['a'] ['/', 'x']) + 0 := by
    rw [List.map_cons, List.sum_cons, sum_map_raw]
  rw [subLinks_chunks, hch, hf, hc2]
  rw [rewriteChunk, chunkFixCount, isExternalLink_slash,
    show startsWithSlash ['/', 'x'] = true from rfl]
  simp only [Bool.false_eq_true, if_false, Bool.not_true, renderChunk]
  simp only [Prod.mk.injEq]
  constructor
  · rw [render_link]
    simp only [List.cons_append, List.append_assoc, List.singleton_append,
      List.nil_append]
  · trivial

/-- Counterexample to C8 as stated: `lstrip('/')` removes every leading
slash, not only the first one, so for the target `//a/b` in a root-level
file the stripped path is `a/b`, not `/a/b`. -/
theorem C8_counterexample :
    calculate_relative_path [] "//a/b".data ≠ "/a/b".data := by
  decide

/-- C8 (amended): the first step strips the maximal run of leading `/`
characters from the target: for a target made of `k` leading slashes
followed by `t` (with `t` not starting in `/`), the stripped target — and
with it the depth-0 rewrite — is exactly `t`. -/
theorem C8_strip_leading_slashes (k : Nat) (t : List Char)
    (h : t.head? ≠ some '/') :
    lstrip_slash (List.replicate k '/' ++ t) = t ∧
    calculate_relative_path [] (List.replicate k '/' ++ t) = t := by
  refine ⟨lstrip_slash_replicate k t h, ?_⟩
  rw [calculate_relative_path_eq, lstrip_slash_replicate k t h]
  rfl

/-- Witness for the amended C8 at the target `//a/b`. -/
theorem C8_strip_leading_slashes_witness :
    ("a/b".data.head? ≠ some '/') ∧
    lstrip_slash (List.replicate 2 '/' ++ "a/b".data) = "a/b".data ∧
    calculate_relative_path [] (List.replicate 2 '/' ++ "a/b".data) =
      "a/b".data :=
  ⟨by decide, C8_strip_leading_slashes 2 "a/b".data (by decide)⟩

/-- C9: the suffix appended after the `../` prefix is the target with all
leading slashes removed and so never begins with `/`; in particular a
root-level file with link `[x](//a/b)` is rewritten to `[x](a/b)`. -/
theorem C9_no_leading_slash_left (parts : List String) (t : List Char) :
    calculate_relative_path parts t = up_path parts.length ++ lstrip_slash t ∧
    (lstrip_slash t).head? ≠ some '/' ∧
    subLinks [] "[x](//a/b)".data = ("[x](a/b)".data, 1) :=
  ⟨calculate_relative_path_eq parts t, lstrip_slash_head t, by decide⟩

/-- C10: a markdown link with empty display text is never matched (the
pattern needs at least one non-`]` character before the closing bracket),
so `[](/path)` passes through every rewrite byte-identical with zero
replacements. -/
theorem C10_empty_text_unmatched (p : List String) :
    (∀ s : List Char, matchLink ('[' :: ']' :: s) = none) ∧
    subLinks p "see [](/path) here".data =
      ("see [](/path) here".data, 0) := by
  constructor
  · intro s
    rw [matchLink]
    simp [takeRun]
  · exact subLinksFuel_noMatch p _ _ (by decide) le_rfl

end FixLinks
